import Mathlib

/-!
Shallow embedding of the AI transaction bot's normalization and deduplication
pipeline (validation utilities, structured extractor, duplicate resolver,
store operations and the orchestrating pipeline), together with theorems
settling the specification claims about them.

Modelling conventions:
* JavaScript numbers are modelled as exact rationals (`ℚ`); `NaN` is a
  separate variant of the dynamic-value type.
* Strings are Lean `String`s; `trim`, `toUpperCase`, `toLowerCase` are
  modelled over their character lists.
* Fallible code returns `Except`; thrown JS error objects become structured
  error values carrying the same field/message data as the source classes.
* External collaborators (DynamoDB, Textract, OpenAI, the filesystem) are
  modelled by explicit environment records holding the data they would
  return for the run under consideration.
-/

deriving instance DecidableEq for Except

/-- Dynamic JS value, restricted to the shapes the validators receive:
strings, finite numbers, `NaN`, `null` and `undefined`. -/
inductive JSVal where
  | vStr (s : String)
  | vNum (q : ℚ)
  | vNaN
  | vNull
  | vUndefined
deriving DecidableEq

/-- JS truthiness for the modelled values: empty string, `0`, `NaN`, `null`
and `undefined` are falsy. -/
def truthy : JSVal → Bool
  | .vStr s => s ≠ ""
  | .vNum q => q ≠ 0
  | .vNaN => false
  | .vNull => false
  | .vUndefined => false

/-- Model of the JS `a || b` idiom on dynamic values. -/
def jsOr (v d : JSVal) : JSVal := if truthy v then v else d

/-- Model of `a || b` where both sides are strings. -/
def strOrS (s d : String) : String := if s = "" then d else s

/-- Model of `a || b` where `a` is an optional string (absent = `undefined`). -/
def strOr (v : Option String) (d : String) : String :=
  match v with
  | some s => if s = "" then d else s
  | none => d

/-- ASCII whitespace recognized by the JS `trim`/`parseFloat` models. -/
def isJsSpace (c : Char) : Bool :=
  c == ' ' || c == '\t' || c == '\n' || c == '\r' || c == '\x0b' || c == '\x0c'

/-- Character-list version of `String.prototype.trim` (ASCII whitespace). -/
def trimChars (l : List Char) : List Char :=
  ((l.dropWhile isJsSpace).reverse.dropWhile isJsSpace).reverse

/-- Model of `String.prototype.trim`. -/
def jsTrim (s : String) : String := (trimChars s.toList).asString

/-- Model of `String.prototype.toUpperCase` (ASCII letters). -/
def jsToUpper (s : String) : String := (s.toList.map Char.toUpper).asString

/-- Model of `String.prototype.toLowerCase` (ASCII letters). -/
def jsToLower (s : String) : String := (s.toList.map Char.toLower).asString

/-- Numeric value of a digit list, most significant digit first. -/
def digitsToNat (ds : List Char) : ℕ :=
  ds.foldl (fun acc c => 10 * acc + (c.toNat - '0'.toNat)) 0

/-- Model of JS `parseFloat`: skip leading whitespace, optional sign, decimal
digits with optional fraction and exponent, ignoring any trailing garbage.
`none` stands for `NaN` (no parseable prefix); non-finite literals such as
`Infinity` are also mapped to `none`, which the amount validator rejects with
the same `"amount"` field as the source does for non-finite values. -/
def parseFloatQ (s : String) : Option ℚ :=
  let cs := s.toList.dropWhile isJsSpace
  let sign : ℤ := match cs with
    | '-' :: _ => -1
    | _ => 1
  let cs1 : List Char := match cs with
    | '-' :: t => t
    | '+' :: t => t
    | _ => cs
  let ip := cs1.takeWhile Char.isDigit
  let cs2 := cs1.dropWhile Char.isDigit
  let fp : List Char := match cs2 with
    | '.' :: t => t.takeWhile Char.isDigit
    | _ => []
  let cs3 : List Char := match cs2 with
    | '.' :: t => t.dropWhile Char.isDigit
    | _ => cs2
  if ip.isEmpty && fp.isEmpty then
    none
  else
    let ex : ℤ := match cs3 with
      | c :: t =>
        if c == 'e' || c == 'E' then
          let esign : ℤ := match t with
            | '-' :: _ => -1
            | _ => 1
          let t2 : List Char := match t with
            | '-' :: u => u
            | '+' :: u => u
            | _ => t
          let eds := t2.takeWhile Char.isDigit
          if eds.isEmpty then 0 else esign * (digitsToNat eds : ℤ)
        else 0
      | [] => 0
    let e10 : ℤ := ex - fp.length
    let digits : ℤ := sign * digitsToNat (ip ++ fp)
    some (if 0 ≤ e10 then mkRat (digits * 10 ^ e10.toNat) 1 else mkRat digits (10 ^ (-e10).toNat))

/-- Error value of the source's `ValidationError` class: a message and the
name of the offending field. -/
structure ValidationError where
  message : String
  field : Option String
deriving DecidableEq

/-- Numeric coercion performed by `validateAmount`: numbers pass through,
strings go through `parseFloat`; `none` means the coerced value is `NaN`
(or the input was `null`/`undefined`, which the validator rejects first). -/
def amountNumericValue : JSVal → Option ℚ
  | .vStr s => parseFloatQ s
  | .vNum q => some q
  | .vNaN => none
  | .vNull => none
  | .vUndefined => none

/-- Model of `validateAmount` from `src/utils/validation.js`. -/
def validateAmount (amount : JSVal) : Except ValidationError ℚ :=
  if amount = .vUndefined ∨ amount = .vNull then
    .error ⟨"Amount is required", some "amount"⟩
  else
    match amountNumericValue amount with
    | none => .error ⟨"Amount must be a valid number", some "amount"⟩
    | some n =>
      if n ≤ 0 then
        .error ⟨"Amount must be greater than 0", some "amount"⟩
      else if n > 1000000000 then
        .error ⟨"Amount is too large (max: 1,000,000,000)", some "amount"⟩
      else
        .ok n

/-- Milliseconds per day, the unit behind JS `Date` epoch arithmetic. -/
def msPerDay : ℤ := 86400000

/-- Day count of a civil date `(y, m, d)` relative to 1970-01-01 (UTC).
Standard civil-calendar algorithm; linear in `d`, so an out-of-range day
(for example February 29 of a common year) normalizes forward exactly the
way JS `Date` component arithmetic does. -/
def daysFromCivil (y m d : ℤ) : ℤ :=
  let y1 := if m ≤ 2 then y - 1 else y
  let era := Int.fdiv y1 400
  let yoe := y1 - era * 400
  let doy := Int.ediv (153 * (m + (if m > 2 then (-3 : ℤ) else 9)) + 2) 5 + d - 1
  let doe := yoe * 365 + Int.ediv yoe 4 - Int.ediv yoe 100 + doy
  era * 146097 + doe - 719468

/-- Civil date `(y, m, d)` of a day count relative to 1970-01-01 (UTC). -/
def civilFromDays (z0 : ℤ) : ℤ × ℤ × ℤ :=
  let z := z0 + 719468
  let era := Int.fdiv z 146097
  let doe := z - era * 146097
  let yoe := Int.ediv (doe - Int.ediv doe 1460 + Int.ediv doe 36524 - Int.ediv doe 146096) 365
  let y := yoe + era * 400
  let doy := doe - (365 * yoe + Int.ediv yoe 4 - Int.ediv yoe 100)
  let mp := Int.ediv (5 * doy + 2) 153
  let d := doy - Int.ediv (153 * mp + 2) 5 + 1
  let m := mp + (if mp < 10 then (3 : ℤ) else -9)
  (if m ≤ 2 then y + 1 else y, m, d)

/-- Epoch milliseconds of midnight UTC on a civil date; used to build
concrete instants in examples. -/
def msOfCivil (y m d : ℤ) : ℤ := daysFromCivil y m d * msPerDay

/-- Left-pad a year to four digits, as `toISOString` prints years 0–9999. -/
def pad4 (n : ℤ) : String :=
  if n < 10 then "000" ++ toString n
  else if n < 100 then "00" ++ toString n
  else if n < 1000 then "0" ++ toString n
  else toString n

/-- Left-pad a month or day to two digits. -/
def pad2 (n : ℤ) : String := if n < 10 then "0" ++ toString n else toString n

/-- Model of `date.toISOString().split('T')[0]` for an epoch-millisecond
instant (UTC; years 0–9999). -/
def isoDateString (ms : ℤ) : String :=
  match civilFromDays (Int.fdiv ms msPerDay) with
  | (y, m, d) => pad4 y ++ "-" ++ pad2 m ++ "-" ++ pad2 d

/-- Model of `new Date(now); oneYearFromNow.setFullYear(getFullYear() + 1)`:
advance the year component by one, keeping month, day-of-month and
time-of-day, with JS component normalization (UTC time zone policy). -/
def oneYearFromNow (now : ℤ) : ℤ :=
  let days := Int.fdiv now msPerDay
  let tod := now - days * msPerDay
  match civilFromDays days with
  | (y, m, d) => daysFromCivil (y + 1) m d * msPerDay + tod

/-- Input to the date validator. `new Date(s)` parsing is engine-defined, so
the model abstracts a date string by its parse outcome: absent/empty input,
an unparseable string (`getTime()` is `NaN`), or the parsed epoch instant. -/
inductive DateInput where
  | absent
  | unparseable
  | parsed (ms : ℤ)
deriving DecidableEq

/-- Model of `validateDate` from `src/utils/validation.js`, validated at wall
clock `now` (epoch ms). -/
def validateDate (now : ℤ) : DateInput → Except ValidationError String
  | .absent => .error ⟨"Date is required", some "date"⟩
  | .unparseable =>
    .error ⟨"Invalid date format. Use ISO 8601 format (YYYY-MM-DD)", some "date"⟩
  | .parsed ms =>
    if oneYearFromNow now < ms then
      .error ⟨"Date cannot be more than 1 year in the future", some "date"⟩
    else
      .ok (isoDateString ms)

/-- Model of `validateTransactionType`: absent or empty input is rejected,
otherwise the lowercased value must be `income` or `expense`. -/
def validateTransactionType : Option String → Except ValidationError String
  | none => .error ⟨"Transaction type is required", some "type"⟩
  | some t =>
    if t = "" then
      .error ⟨"Transaction type is required", some "type"⟩
    else
      let lower := jsToLower t
      if lower = "income" ∨ lower = "expense" then
        .ok lower
      else
        .error ⟨"Transaction type must be either \x27income\x27 or \x27expense\x27. Received: " ++ t,
                some "type"⟩

/-- Model of `validateMerchant`: required non-empty string, trimmed, at most
200 characters. -/
def validateMerchant : Option String → Except ValidationError String
  | none => .error ⟨"Merchant name is required and must be a string", some "merchant"⟩
  | some m =>
    if m = "" then
      .error ⟨"Merchant name is required and must be a string", some "merchant"⟩
    else
      let t := jsTrim m
      if t.length = 0 then
        .error ⟨"Merchant name cannot be empty", some "merchant"⟩
      else if t.length > 200 then
        .error ⟨"Merchant name is too long (max 200 characters)", some "merchant"⟩
      else
        .ok t

/-- Model of `validateCategory`: required non-empty string, trimmed, at most
100 characters. -/
def validateCategory : Option String → Except ValidationError String
  | none => .error ⟨"Category is required and must be a string", some "category"⟩
  | some c =>
    if c = "" then
      .error ⟨"Category is required and must be a string", some "category"⟩
    else
      let t := jsTrim c
      if t.length = 0 then
        .error ⟨"Category cannot be empty", some "category"⟩
      else if t.length > 100 then
        .error ⟨"Category is too long (max 100 characters)", some "category"⟩
      else
        .ok t

/-- The uppercased-and-trimmed form is exactly three ASCII capital letters
(the `/^[A-Z]\x7b3\x7d$/` test together with the length check). -/
def isThreeLetters (s : String) : Bool :=
  s.length == 3 && s.toList.all fun c => 'A' ≤ c && c ≤ 'Z'

/-- Model of `validateCurrency`: falsy or non-string input defaults to
`USD`; a non-empty string is uppercased and trimmed and must then be exactly
three letters. -/
def validateCurrency : JSVal → Except ValidationError String
  | .vStr s =>
    if s = "" then
      .ok "USD"
    else
      let upper := jsTrim (jsToUpper s)
      if upper.length ≠ 3 then
        .error ⟨"Currency must be a 3-letter code (e.g., USD, EUR)", some "currency"⟩
      else if ¬ (upper.toList.all fun c => 'A' ≤ c && c ≤ 'Z') then
        .error ⟨"Currency code must contain only letters", some "currency"⟩
      else
        .ok upper
  | _ => .ok "USD"

/-- Model of `validateUserId`: required non-empty string, trimmed, at most
100 characters. -/
def validateUserId (userId : String) : Except ValidationError String :=
  if userId = "" then
    .error ⟨"User ID is required and must be a string", some "userId"⟩
  else
    let t := jsTrim userId
    if t.length = 0 then
      .error ⟨"User ID cannot be empty", some "userId"⟩
    else if t.length > 100 then
      .error ⟨"User ID is too long (max 100 characters)", some "userId"⟩
    else
      .ok t

/-- Raw candidate record reaching `validateTransaction` (the structured
extractor's output after the pipeline stamps `source`/`rawText`). String
fields that the source checks with `typeof !== 'string'` are `Option String`
(`none` = absent or non-string); `amount`/`currency` keep the full dynamic
shape the validators inspect. The `date` string is abstracted by its parse
outcome, as in `DateInput`. -/
structure Candidate where
  amount : JSVal
  date : DateInput
  type : Option String
  merchant : Option String
  category : Option String
  currency : JSVal
  description : Option String
  source : Option String
  rawText : Option String
deriving DecidableEq

/-- Fully validated transaction data, the output shape of
`validateTransaction`. -/
structure ValidatedTx where
  amount : ℚ
  date : String
  type : String
  merchant : String
  category : String
  currency : String
  description : String
  source : String
  rawText : String
deriving DecidableEq

/-- Model of `validateTransaction` from `src/utils/validation.js`: runs the
field validators in source order (amount, date, type, merchant, category,
currency), fills `description`/`source`/`rawText` defaults, and finally
checks the description length; the first failure aborts. -/
def validateTransaction (now : ℤ) (t : Candidate) : Except ValidationError ValidatedTx :=
  match validateAmount t.amount with
  | .error e => .error e
  | .ok amount =>
    match validateDate now t.date with
    | .error e => .error e
    | .ok date =>
      match validateTransactionType t.type with
      | .error e => .error e
      | .ok type =>
        match validateMerchant t.merchant with
        | .error e => .error e
        | .ok merchant =>
          match validateCategory t.category with
          | .error e => .error e
          | .ok category =>
            match validateCurrency (jsOr t.currency (.vStr "USD")) with
            | .error e => .error e
            | .ok currency =>
              let description := match t.description with
                | some s => if s = "" then "" else jsTrim s
                | none => ""
              if description.length > 500 then
                .error ⟨"Description is too long (max 500 characters)", some "description"⟩
              else
                .ok { amount, date, type, merchant, category, currency, description,
                      source := strOr t.source "manual", rawText := strOr t.rawText "" }

/-- Stored transaction item, as built by `createTransaction` in
`src/services/dynamodbService.js`. -/
structure TxRecord where
  userId : String
  transactionId : String
  timestamp : ℤ
  amount : ℚ
  currency : String
  date : String
  merchant : String
  category : String
  type : String
  description : String
  source : String
  rawText : String
  status : String
  createdAt : String
  updatedAt : String
deriving DecidableEq

/-- Values generated inside `createTransaction` at write time: the fresh
`tx-<uuid>` identifier, `Date.now()` and `new Date().toISOString()`. -/
structure GenCtx where
  txId : String
  timestamp : ℤ
  nowIso : String
deriving DecidableEq

/-- Model of `createTransaction`: builds the item that is put into the
table (the `||` defaults mirror the source). -/
def createTransaction (g : GenCtx) (userId : String) (d : ValidatedTx) : TxRecord :=
  { userId := userId
    transactionId := g.txId
    timestamp := g.timestamp
    amount := d.amount
    currency := strOrS d.currency "USD"
    date := d.date
    merchant := d.merchant
    category := d.category
    type := d.type
    description := strOrS d.description ""
    source := strOrS d.source "manual"
    rawText := strOrS d.rawText ""
    status := "confirmed"
    createdAt := g.nowIso
    updatedAt := g.nowIso }

/-- DynamoDB query on the `merchant-date-index` GSI: all table items whose
`merchant` and `date` equal the key, across every user. -/
def queryMerchantDateIndex (table : List TxRecord) (merchant date : String) : List TxRecord :=
  table.filter fun item => decide (item.merchant = merchant ∧ item.date = date)

/-- Model of `checkForDuplicates` (indexed path): query the GSI by merchant
and date, then filter client-side to the caller's user and to amounts within
the 5% relative tolerance. -/
def checkForDuplicates (table : List TxRecord) (userId merchant date : String) (amount : ℚ) :
    List TxRecord :=
  (queryMerchantDateIndex table merchant date).filter fun item =>
    decide (item.userId = userId ∧ |item.amount - amount| / amount ≤ 5 / 100)

/-- DynamoDB `scan` with a `FilterExpression` and `Limit`: the scan evaluates
at most `limit` items of the table (in storage order) and only then applies
the filter to those items. -/
def dynamoScanFiltered (table : List TxRecord) (limit : ℕ) (p : TxRecord → Bool) :
    List TxRecord :=
  (table.take limit).filter p

/-- Model of `checkForDuplicatesFallback`: scan (capped at 100 evaluated
items) filtered server-side on user, merchant and date, then the same 5%
amount tolerance client-side. -/
def checkForDuplicatesFallback (table : List TxRecord) (userId merchant date : String)
    (amount : ℚ) : List TxRecord :=
  (dynamoScanFiltered table 100 fun item =>
    decide (item.userId = userId ∧ item.merchant = merchant ∧ item.date = date)).filter
    fun item => decide (|item.amount - amount| / amount ≤ 5 / 100)

/-- Lexicographic comparison of character lists, the order DynamoDB keeps
string sort keys in. -/
def charListLt : List Char → List Char → Bool
  | [], [] => false
  | [], _ :: _ => true
  | _ :: _, [] => false
  | a :: as, b :: bs => if a < b then true else if b < a then false else charListLt as bs

/-- Lexicographic string order used for the table's sort key. -/
def strLt (a b : String) : Bool := charListLt a.toList b.toList

/-- Insert a record into a list kept sorted by `transactionId` descending. -/
def insertByTxIdDesc (r : TxRecord) : List TxRecord → List TxRecord
  | [] => [r]
  | x :: xs =>
    if strLt x.transactionId r.transactionId then r :: x :: xs else x :: insertByTxIdDesc r xs

/-- Sort records by `transactionId` descending — the order a DynamoDB query
with `ScanIndexForward: false` returns items of one partition, since
`transactionId` is the table's sort key. -/
def sortByTxIdDesc (l : List TxRecord) : List TxRecord := l.foldr insertByTxIdDesc []

/-- Default `limit` of `getUserTransactions`. -/
def defaultLimit : ℕ := 100

/-- Model of `getUserTransactions`: the user's partition in sort-key
(`transactionId`) descending order, capped at `limit`. -/
def getUserTransactions (table : List TxRecord) (userId : String) (limit : ℕ) :
    List TxRecord :=
  (sortByTxIdDesc (table.filter fun item => decide (item.userId = userId))).take limit

/-- Typed outcomes of the structured extractor (`LLMError` throw sites in
`src/services/llmservices.js`). `missingRequired` carries the list of missing
keys the thrown message is built from. -/
inductive LLMFailure where
  | emptyInput
  | noApiKey
  | emptyResponse
  | parseFailure
  | missingRequired (fields : List String)
  | api (msg : String)
deriving DecidableEq

/-- Message carried by the schema failure, as built by
`missingFields.join(', ')` in the source throw. -/
def llmMissingMessage (ms : List String) : String :=
  "Missing required fields in LLM response: " ++ String.intercalate ", " ms

/-- Remove every occurrence of a triple-backtick fence marker (with an
optional trailing newline), left to right — the `replace` of the
three-backtick pattern in the source. -/
def removeFenceMarks : List Char → List Char
  | '\x60' :: '\x60' :: '\x60' :: '\n' :: rest => removeFenceMarks rest
  | '\x60' :: '\x60' :: '\x60' :: rest => removeFenceMarks rest
  | c :: rest => c :: removeFenceMarks rest
  | [] => []

/-- Model of the response-cleaning line of `extractTransactionFromText`:
the first `replace` has the pattern `\n?`, so it deletes every newline and
nothing else; the second deletes triple-backtick markers; then `trim`. -/
def cleanJson (s : String) : String :=
  (trimChars (removeFenceMarks (s.toList.filter fun c => c ≠ '\n'))).asString

/-- Necessary condition for `JSON.parse` to succeed: after leading
whitespace, a JSON text must begin with an object, array, string, number or
one of the literals `true`, `false`, `null`. -/
def canStartJson (s : String) : Bool :=
  match s.toList.dropWhile isJsSpace with
  | [] => false
  | c :: _ =>
    c == '\x7b' || c == '[' || c == '"' || c == 't' || c == 'f' || c == 'n' ||
      c == '-' || c.isDigit

/-- Parsed JSON object shape the extractor inspects: the value found at each
of the seven contract keys (`vUndefined` = key absent). -/
structure ParsedTx where
  amount : JSVal
  date : JSVal
  merchant : JSVal
  category : JSVal
  type : JSVal
  currency : JSVal
  description : JSVal
deriving DecidableEq

/-- Required keys of the extraction contract, in source order. -/
def requiredFields : List String := ["amount", "date", "merchant", "category", "type"]

/-- Dynamic field lookup `transactionData[field]` for the required keys. -/
def fieldVal (p : ParsedTx) (f : String) : JSVal :=
  if f = "amount" then p.amount
  else if f = "date" then p.date
  else if f = "merchant" then p.merchant
  else if f = "category" then p.category
  else if f = "type" then p.type
  else .vUndefined

/-- The source's presence test: `transactionData[field] === undefined ||
transactionData[field] === null` marks the field missing. -/
def presentIn (p : ParsedTx) (f : String) : Bool :=
  decide (fieldVal p f ≠ .vUndefined ∧ fieldVal p f ≠ .vNull)

/-- The `missingFields` list computed by the extractor. -/
def missingFields (p : ParsedTx) : List String :=
  requiredFields.filter fun f => ¬ presentIn p f

/-- Day-of-month regex gate `/^\d\x7b4\x7d-\d\x7b2\x7d-\d\x7b2\x7d$/` used
before the date reformat step. -/
def dateRegexMatches (s : String) : Bool :=
  match s.toList with
  | [a, b, c, d, '-', e, f, '-', g, h] =>
    a.isDigit && b.isDigit && c.isDigit && d.isDigit && e.isDigit && f.isDigit &&
      g.isDigit && h.isDigit
  | _ => false

/-- Environment of one `extractTransactionFromText` call: the configured
key, the completion content the API returned (`none` = absent message), the
engine's `JSON.parse` outcome on a cleaned string, the engine's `new Date`
parse of a nonconforming date string, and today's instant for the fallback
date. -/
structure LLMEnv where
  apiKeyConfigured : Bool
  response : Option String
  jsonParse : String → Option ParsedTx
  dateParse : String → Option ℤ
  todayMs : ℤ

/-- Post-processing after the schema check: coerce a string amount through
`parseFloat`, reformat a nonconforming date (falling back to today), and
default `currency`/`description`. -/
def postProcess (env : LLMEnv) (p : ParsedTx) : ParsedTx :=
  let amount := match p.amount with
    | .vStr s =>
      match parseFloatQ s with
      | some q => JSVal.vNum q
      | none => JSVal.vNaN
    | a => a
  let date := match p.date with
    | .vStr s =>
      if dateRegexMatches s then JSVal.vStr s
      else
        match env.dateParse s with
        | some ms => JSVal.vStr (isoDateString ms)
        | none => JSVal.vStr (isoDateString env.todayMs)
    | d => d
  let currency := jsOr p.currency (.vStr "USD")
  let description := jsOr p.description (.vStr "")
  { p with amount, date, currency, description }

/-- Model of `extractTransactionFromText`: input and key guards, the
response guard, clean-then-parse, the required-keys check (collecting every
missing key), then post-processing. -/
def extractTransactionFromText (env : LLMEnv) (text : String) : Except LLMFailure ParsedTx :=
  if jsTrim text = "" then
    .error .emptyInput
  else if ¬ env.apiKeyConfigured then
    .error .noApiKey
  else
    match env.response with
    | none => .error .emptyResponse
    | some rc =>
      if rc = "" then
        .error .emptyResponse
      else
        match env.jsonParse (cleanJson rc) with
        | none => .error .parseFailure
        | some p =>
          let ms := missingFields p
          if ms ≠ [] then
            .error (.missingRequired ms)
          else
            .ok (postProcess env p)

/-- Typed outcomes of the OCR adapter (`OCRError` throw sites in
`src/services/ocrServices.js`). -/
inductive OCRFailure where
  | badPath
  | fileNotFound (path : String)
  | tooLarge (bytes : ℕ)
  | noText
  | aws (code : String)
deriving DecidableEq

/-- One block of a Textract response; `text` is the optional `Text`
attribute. -/
structure TextractBlock where
  blockType : String
  text : Option String
deriving DecidableEq

/-- Environment of one `extractTextFromImage` call: whether the file at the
given path exists, its byte size, and what `detectDocumentText` would return
(`Except` error code, or the optional `Blocks` array). -/
structure OcrEnv where
  fileExists : Bool
  fileSize : ℕ
  textract : Except String (Option (List TextractBlock))

/-- The 10 MB Textract payload cap checked before the external call. -/
def maxImageBytes : ℕ := 10 * 1024 * 1024

/-- Line concatenation of a Textract response: keep `LINE` blocks, drop
absent or blank texts, join with newlines. -/
def ocrJoinLines (blocks : List TextractBlock) : String :=
  String.intercalate "\n"
    (((blocks.filter fun b => decide (b.blockType = "LINE")).filterMap fun b => b.text).filter
      fun t => decide (t ≠ "" ∧ jsTrim t ≠ ""))

/-- Model of `extractTextFromImage`. The second component records whether
the external Textract call was made (the size guard fires before it). -/
def extractTextFromImage (env : OcrEnv) (imagePath : String) :
    Except OCRFailure String × Bool :=
  if imagePath = "" then
    (.error .badPath, false)
  else if ¬ env.fileExists then
    (.error (.fileNotFound imagePath), false)
  else if env.fileSize > maxImageBytes then
    (.error (.tooLarge env.fileSize), false)
  else
    match env.textract with
    | .error code => (.error (.aws code), true)
    | .ok none => (.error .noText, true)
    | .ok (some blocks) =>
      let txt := ocrJoinLines blocks
      if txt = "" ∨ jsTrim txt = "" then
        (.error .noText, true)
      else
        (.ok (jsTrim txt), true)

/-- Failure kinds the pipeline can propagate to its caller. -/
inductive AppError where
  | validation (e : ValidationError)
  | llm (e : LLMFailure)
  | ocr (e : OCRFailure)
deriving DecidableEq

/-- Pipeline result shape `{ transaction, message, isDuplicate,
duplicateTransaction }`. -/
structure PipeResult where
  transaction : Option TxRecord
  message : String
  isDuplicate : Bool
  duplicateTransaction : Option TxRecord
deriving DecidableEq

/-- Observable side effects of one pipeline run: items written through
`createTransaction`, invocations of `cleanupImageFile`, and Textract calls. -/
structure Effects where
  created : List TxRecord
  cleanups : ℕ
  textractCalls : ℕ
deriving DecidableEq

/-- Duplicate-warning message returned on the `DuplicateFound` terminal
(warning emoji elided). -/
def duplicateMessage (fromReceipt : Bool) (d : TxRecord) : String :=
  "Potential duplicate transaction detected" ++
    (if fromReceipt then " from receipt" else "") ++
    ". Similar transaction found: $" ++ toString d.amount ++ " at " ++ d.merchant ++
    " on " ++ d.date ++ ". Transaction ID: " ++ d.transactionId

/-- Model of `generateConfirmationMessage` (emoji elided; the amount is
printed by its rational value rather than `toFixed(2)`). -/
def generateConfirmationMessage (fromReceipt : Bool) (t : TxRecord) : String :=
  "Transaction recorded " ++ (if fromReceipt then "from receipt" else "") ++ ": $" ++
    toString t.amount ++ " " ++ t.type ++ " at " ++ t.merchant ++ " (" ++ t.category ++
    "). Transaction ID: " ++ t.transactionId

/-- Environment of one `processTransactionFromText` run: the validation wall
clock, the table contents the duplicate check sees, the generated identifiers
for a write, and the structured extractor's outcome for this input (already
mapped to a raw `Candidate`). -/
structure TextPipelineEnv where
  now : ℤ
  table : List TxRecord
  gen : GenCtx
  llmResult : Except LLMFailure Candidate

/-- Model of `processTransactionFromText`: validate the user id, run the
structured extractor, stamp `source`/`rawText`, validate, check duplicates,
and either return the duplicate terminal or persist and confirm. -/
def processTransactionFromText (env : TextPipelineEnv) (userId text : String) :
    Except AppError PipeResult × Effects :=
  match validateUserId userId with
  | .error e => (.error (.validation e), ⟨[], 0, 0⟩)
  | .ok validUserId =>
    match env.llmResult with
    | .error e => (.error (.llm e), ⟨[], 0, 0⟩)
    | .ok cand0 =>
      let cand := { cand0 with source := some "manual", rawText := some text }
      match validateTransaction env.now cand with
      | .error e => (.error (.validation e), ⟨[], 0, 0⟩)
      | .ok v =>
        match checkForDuplicates env.table validUserId v.merchant v.date v.amount with
        | d :: _ => (.ok ⟨none, duplicateMessage false d, true, some d⟩, ⟨[], 0, 0⟩)
        | [] =>
          let created := createTransaction env.gen validUserId v
          (.ok ⟨some created, generateConfirmationMessage false created, false, none⟩,
            ⟨[created], 0, 0⟩)

/-- Environment of one `processTransactionFromImage` run; `unlinkResult` is
what the `fs.unlink` inside `cleanupImageFile` would do. -/
structure ImagePipelineEnv where
  now : ℤ
  table : List TxRecord
  gen : GenCtx
  ocr : OcrEnv
  llmResult : Except LLMFailure Candidate
  unlinkResult : Except String Unit

/-- Model of `cleanupImageFile` applied to an effects record: the call is
counted, and a failing `unlink` is swallowed by the internal catch, so both
branches behave identically. -/
def runCleanup (unlinkResult : Except String Unit) (eff : Effects) : Effects :=
  match unlinkResult with
  | .ok _ => { eff with cleanups := eff.cleanups + 1 }
  | .error _ => { eff with cleanups := eff.cleanups + 1 }

/-- The `try` block of `processTransactionFromImage`. The middle component
is the `cleanedUp` flag: it is set only after the cleanup call on the
duplicate and success paths. -/
def imageTryBody (env : ImagePipelineEnv) (userId imagePath : String) :
    Except AppError PipeResult × Bool × Effects :=
  match validateUserId userId with
  | .error e => (.error (.validation e), false, ⟨[], 0, 0⟩)
  | .ok validUserId =>
    match extractTextFromImage env.ocr imagePath with
    | (.error e, called) => (.error (.ocr e), false, ⟨[], 0, if called then 1 else 0⟩)
    | (.ok extractedText, called) =>
      let tc : ℕ := if called then 1 else 0
      match env.llmResult with
      | .error e => (.error (.llm e), false, ⟨[], 0, tc⟩)
      | .ok cand0 =>
        let cand := { cand0 with source := some "ocr", rawText := some extractedText }
        match validateTransaction env.now cand with
        | .error e => (.error (.validation e), false, ⟨[], 0, tc⟩)
        | .ok v =>
          match checkForDuplicates env.table validUserId v.merchant v.date v.amount with
          | d :: _ =>
            (.ok ⟨none, duplicateMessage true d, true, some d⟩, true,
              runCleanup env.unlinkResult ⟨[], 0, tc⟩)
          | [] =>
            let created := createTransaction env.gen validUserId v
            (.ok ⟨some created, generateConfirmationMessage true created, false, none⟩, true,
              runCleanup env.unlinkResult ⟨[created], 0, tc⟩)

/-- Model of `processTransactionFromImage`: run the `try` body; on an error,
the `catch` block cleans up unless the `cleanedUp` flag was already set, then
rethrows. -/
def processTransactionFromImage (env : ImagePipelineEnv) (userId imagePath : String) :
    Except AppError PipeResult × Effects :=
  match imageTryBody env userId imagePath with
  | (.ok r, _, eff) => (.ok r, eff)
  | (.error e, cleanedUp, eff) =>
    if cleanedUp then (.error e, eff) else (.error e, runCleanup env.unlinkResult eff)

/-- Example validation instant: 2024-01-15 UTC. -/
def exNow : ℤ := msOfCivil 2024 1 15

/-- Example candidate produced by the structured extractor. -/
def exCand : Candidate :=
  { amount := .vNum 100, date := .parsed (msOfCivil 2024 1 10), type := some "expense",
    merchant := some "Starbucks", category := some "Food", currency := .vStr "USD",
    description := none, source := none, rawText := none }

/-- Validator output for `exCand` on the text path. -/
def exValidated : ValidatedTx :=
  { amount := 100, date := "2024-01-10", type := "expense", merchant := "Starbucks",
    category := "Food", currency := "USD", description := "", source := "manual",
    rawText := "coffee" }

/-- Example stored record that duplicates `exCand` within the 5% band. -/
def exExisting : TxRecord :=
  { userId := "u1", transactionId := "tx-1", timestamp := 5, amount := 104,
    currency := "USD", date := "2024-01-10", merchant := "Starbucks", category := "Food",
    type := "expense", description := "", source := "manual", rawText := "old",
    status := "confirmed", createdAt := "t0", updatedAt := "t0" }

/-- Example write-time generated values. -/
def exGen : GenCtx := ⟨"tx-new", 999, "2024-01-15T00:00:00.000Z"⟩

/-- Text-pipeline environment whose duplicate check finds `exExisting`. -/
def exTextEnvDup : TextPipelineEnv :=
  { now := exNow, table := [exExisting], gen := exGen, llmResult := .ok exCand }

/-- Text-pipeline environment over an empty table (no duplicates). -/
def exTextEnvFresh : TextPipelineEnv :=
  { now := exNow, table := [], gen := exGen, llmResult := .ok exCand }

/-- OCR environment returning one line of text. -/
def exOcrEnv : OcrEnv :=
  { fileExists := true, fileSize := 2048, textract := .ok (some [⟨"LINE", some "coffee"⟩]) }

/-- Image-pipeline environment whose duplicate check finds `exExisting`. -/
def exImageEnvDup : ImagePipelineEnv :=
  { now := exNow, table := [exExisting], gen := exGen, ocr := exOcrEnv,
    llmResult := .ok exCand, unlinkResult := .ok () }

/-- Image-pipeline environment with an oversized upload (10 MB + 1 byte). -/
def exImageEnvBig : ImagePipelineEnv :=
  { now := exNow, table := [], gen := exGen,
    ocr := { fileExists := true, fileSize := 10 * 1024 * 1024 + 1, textract := .ok none },
    llmResult := .error .emptyInput, unlinkResult := .error "EACCES" }

/-- A stored record of a different user that does not match the scan filter. -/
def exOtherRec : TxRecord :=
  { exExisting with userId := "u2", transactionId := "tx-o", merchant := "Bodega" }

/-- A matching record of user `u1` with amount exactly 10. -/
def exMineRec : TxRecord :=
  { exExisting with transactionId := "tx-m", amount := 10 }

/-- A 101-item table whose only record matching `exCand`-like keys sits past
the 100-item scan window. -/
def exBigTable : List TxRecord := List.replicate 100 exOtherRec ++ [exMineRec]

/-- Stored record with the lexicographically larger sort key but the older
creation timestamp. -/
def exOlderRec : TxRecord :=
  { exExisting with transactionId := "tx-b0000", timestamp := 1000 }

/-- Stored record created later but with the smaller sort key. -/
def exNewerRec : TxRecord :=
  { exExisting with transactionId := "tx-a9999", timestamp := 2000 }

/-- The JSON object body used in the fencing examples. -/
def innerJsonExample : String := "\x7b\"amount\": 12.5, \"merchant\": \"Target\"\x7d"

/-- The body wrapped in a ```json fence, the common LLM response shape. -/
def fencedJsonExample : String :=
  "\x60\x60\x60json\n" ++ innerJsonExample ++ "\n\x60\x60\x60"

/-- The body wrapped in a bare ``` fence (no language tag). -/
def plainFencedExample : String :=
  "\x60\x60\x60\n" ++ innerJsonExample ++ "\n\x60\x60\x60"

/-- Fully present parsed object used by the fencing example parser. -/
def exParsedGood : ParsedTx :=
  { amount := .vNum 10, date := .vStr "2024-01-15", merchant := .vStr "Target",
    category := .vStr "Shopping", type := .vStr "expense", currency := .vUndefined,
    description := .vUndefined }

/-- Extractor environment whose JSON parser accepts exactly the unfenced
body (consistent with `JSON.parse`, which cannot accept a `json`-prefixed
string). -/
def exLLMEnvFenced : LLMEnv :=
  { apiKeyConfigured := true, response := some fencedJsonExample,
    jsonParse := fun s => if s = innerJsonExample then some exParsedGood else none,
    dateParse := fun _ => none, todayMs := exNow }

/-- Parsed object missing both `merchant` (absent) and `type` (null). -/
def exParsedMissing : ParsedTx :=
  { amount := .vNum 1, date := .vStr "2024-01-15", merchant := .vUndefined,
    category := .vStr "Food", type := .vNull, currency := .vUndefined, description := .vUndefined }

/-- Extractor environment whose parser returns `exParsedMissing`. -/
def exLLMEnvMissing : LLMEnv :=
  { apiKeyConfigured := true, response := some "\x7b\x7d",
    jsonParse := fun _ => some exParsedMissing, dateParse := fun _ => none, todayMs := exNow }

/-- Validation instant for the date counterexample: 2023-06-15 UTC, chosen so
that the following 12 months contain 2024-02-29. -/
def exNowLeapSpan : ℤ := msOfCivil 2023 6 15

/-- C1 (amended): a record is returned by the indexed duplicate check
exactly when it is in the table, belongs to the caller's user, equals the
candidate's merchant and date, and is within the 5% relative amount
tolerance; the fallback obeys the same characterization restricted to the
first 100 table items its capped scan evaluates. Cross-user records are
never returned on either path. -/
theorem checkForDuplicates_match_characterization (table : List TxRecord) (userId merchant date : String) (amount : ℚ)
    (r : TxRecord) :
    (r ∈ checkForDuplicates table userId merchant date amount ↔
      r ∈ table ∧ r.userId = userId ∧ r.merchant = merchant ∧ r.date = date ∧
        |r.amount - amount| / amount ≤ 5 / 100) ∧
    (r ∈ checkForDuplicatesFallback table userId merchant date amount ↔
      r ∈ table.take 100 ∧ r.userId = userId ∧ r.merchant = merchant ∧ r.date = date ∧
        |r.amount - amount| / amount ≤ 5 / 100) := by
  constructor
  · simp [checkForDuplicates, queryMerchantDateIndex, List.mem_filter]
    tauto
  · simp [checkForDuplicatesFallback, dynamoScanFiltered, List.mem_filter]
    tauto

/-- C6: `validateAmount` returns the coerced value exactly when the
numeric coercion succeeds and the value lies in the interval (0, 1e9];
in every other case it fails with a `ValidationError` on field `amount`. -/
theorem validateAmount_range_characterization (a : JSVal) :
    (∀ v : ℚ, validateAmount a = .ok v ↔
      amountNumericValue a = some v ∧ 0 < v ∧ v ≤ 1000000000) ∧
    ((∃ e, validateAmount a = .error e ∧ e.field = some "amount") ↔
      amountNumericValue a = none ∨
        ∃ v, amountNumericValue a = some v ∧ (v ≤ 0 ∨ 1000000000 < v)) := by
  unfold validateAmount
  by_cases hnu : a = .vUndefined ∨ a = .vNull
  · have hnone : amountNumericValue a = none := by
      rcases hnu with h | h <;> subst h <;> rfl
    rw [if_pos hnu, hnone]
    constructor
    · intro v; simp
    · simp
  · rw [if_neg hnu]
    cases h : amountNumericValue a with
    | none => simp
    | some n =>
      dsimp only
      by_cases h1 : n ≤ 0
      · rw [if_pos h1]
        constructor
        · intro v
          constructor
          · intro hv; cases hv
          · rintro ⟨hv, h0, _⟩
            injection hv with hv
            subst hv
            exact absurd h1 (not_le.mpr h0)
        · constructor
          · intro _; exact Or.inr ⟨n, rfl, Or.inl h1⟩
          · intro _; exact ⟨_, rfl, rfl⟩
      · rw [if_neg h1]
        by_cases h2 : n > 1000000000
        · rw [if_pos h2]
          constructor
          · intro v
            constructor
            · intro hv; cases hv
            · rintro ⟨hv, _, hle⟩
              injection hv with hv
              subst hv
              exact absurd h2 (not_lt.mpr hle)
          · constructor
            · intro _; exact Or.inr ⟨n, rfl, Or.inr h2⟩
            · intro _; exact ⟨_, rfl, rfl⟩
        · rw [if_neg h2]
          constructor
          · intro v
            constructor
            · intro hv
              injection hv with hv
              subst hv
              exact ⟨rfl, not_le.mp h1, not_lt.mp h2⟩
            · rintro ⟨hv, _, _⟩
              injection hv with hv
              subst hv
              rfl
          · constructor
            · rintro ⟨e, he, _⟩; cases he
            · rintro (hn | ⟨v, hv, hbad⟩)
              · cases hn
              · injection hv with hv
                subst hv
                rcases hbad with hb | hb
                · exact absurd hb h1
                · exact absurd hb h2

/-- C7 (amended): `validateDate` rejects with field `date` exactly the
parseable instants later than the validation instant advanced by one
calendar year (`setFullYear` semantics, 365 or 366 days depending on the
span), accepts and normalizes every other parseable instant to the ISO date
string, and rejects unparseable input with field `date`. -/
theorem validateDate_calendar_year_characterization (now : ℤ) (inp : DateInput) :
    (inp = .unparseable →
      validateDate now inp =
        .error ⟨"Invalid date format. Use ISO 8601 format (YYYY-MM-DD)", some "date"⟩) ∧
    (∀ ms, inp = .parsed ms → oneYearFromNow now < ms →
      validateDate now inp =
        .error ⟨"Date cannot be more than 1 year in the future", some "date"⟩) ∧
    (∀ ms, inp = .parsed ms → ms ≤ oneYearFromNow now →
      validateDate now inp = .ok (isoDateString ms)) := by
  refine ⟨?_, ?_, ?_⟩
  · rintro rfl; rfl
  · rintro ms rfl hlt
    unfold validateDate
    dsimp only
    rw [if_pos hlt]
  · rintro ms rfl hle
    unfold validateDate
    dsimp only
    rw [if_neg (not_lt.mpr hle)]

/-- C10 (amended): for a non-empty string input, `validateCurrency` fails
on field `currency` exactly when the uppercased-and-trimmed form is not
three ASCII letters, and otherwise returns that form; non-string and
empty-string inputs yield the `USD` default, so the whole-record currency
step can never fail on a non-string value. -/
theorem validateCurrency_string_characterization (c : JSVal) :
    (∀ s, c = .vStr s → s ≠ "" →
      ((∃ e, validateCurrency c = .error e ∧ e.field = some "currency") ↔
        isThreeLetters (jsTrim (jsToUpper s)) = false) ∧
      (isThreeLetters (jsTrim (jsToUpper s)) = true →
        validateCurrency c = .ok (jsTrim (jsToUpper s)))) ∧
    ((∀ s, c ≠ .vStr s) → validateCurrency c = .ok "USD") ∧
    (c = .vStr "" → validateCurrency c = .ok "USD") ∧
    ((∀ s, c ≠ .vStr s) → validateCurrency (jsOr c (.vStr "USD")) = .ok "USD") := by
  refine ⟨?_, ?_, ?_, ?_⟩
  · rintro s rfl hs
    unfold validateCurrency
    dsimp only
    rw [if_neg hs]
    by_cases hlen : (jsTrim (jsToUpper s)).length = 3
    · by_cases hall : ((jsTrim (jsToUpper s)).toList.all fun c => 'A' ≤ c && c ≤ 'Z') = true
      · have h3 : isThreeLetters (jsTrim (jsToUpper s)) = true := by
          unfold isThreeLetters
          rw [hall, beq_iff_eq.mpr hlen]
          rfl
        rw [if_neg (not_not_intro hlen), if_neg (not_not_intro hall), h3]
        constructor
        · constructor
          · rintro ⟨e, he, _⟩; cases he
          · intro hfalse; cases hfalse
        · intro _; rfl
      · have hallf : ((jsTrim (jsToUpper s)).toList.all fun c => 'A' ≤ c && c ≤ 'Z') = false := by
          cases hb : ((jsTrim (jsToUpper s)).toList.all fun c => 'A' ≤ c && c ≤ 'Z')
          · rfl
          · exact absurd hb hall
        have h3 : isThreeLetters (jsTrim (jsToUpper s)) = false := by
          unfold isThreeLetters
          rw [hallf, Bool.and_false]
        rw [if_neg (not_not_intro hlen), if_pos hall, h3]
        constructor
        · constructor
          · intro _; rfl
          · intro _; exact ⟨_, rfl, rfl⟩
        · intro htrue; cases htrue
    · have h3 : isThreeLetters (jsTrim (jsToUpper s)) = false := by
        unfold isThreeLetters
        have hb3 : ((jsTrim (jsToUpper s)).length == 3) = false := by
          cases hb : ((jsTrim (jsToUpper s)).length == 3)
          · rfl
          · exact absurd (beq_iff_eq.mp hb) hlen
        rw [hb3, Bool.false_and]
      rw [if_pos hlen, h3]
      constructor
      · constructor
        · intro _; rfl
        · intro _; exact ⟨_, rfl, rfl⟩
      · intro htrue; cases htrue
  · intro h
    cases c with
    | vStr s => exact absurd rfl (h s)
    | vNum q => rfl
    | vNaN => rfl
    | vNull => rfl
    | vUndefined => rfl
  · rintro rfl; rfl
  · intro h
    cases c with
    | vStr s => exact absurd rfl (h s)
    | vNum q =>
      by_cases hq : q = 0
      · subst hq; decide
      · simp only [jsOr, truthy]
        rw [if_pos (by simpa using hq)]
        rfl
    | vNaN => decide
    | vNull => decide
    | vUndefined => decide

/-- Defaulting to the empty string leaves every string unchanged. -/
theorem strOrS_empty_right (s : String) : strOrS s "" = s := by
  unfold strOrS
  by_cases h : s = ""
  · rw [if_pos h, h]
  · rw [if_neg h]

/-- The string default is inert on non-empty strings. -/
theorem strOrS_of_ne (s d : String) (h : s ≠ "") : strOrS s d = s := by
  unfold strOrS
  rw [if_neg h]

/-- A successful currency validation never returns the empty string. -/
theorem validateCurrency_ok_ne_empty (x : JSVal) (c : String)
    (h : validateCurrency x = .ok c) : c ≠ "" := by
  cases x with
  | vStr s =>
    unfold validateCurrency at h
    dsimp only at h
    by_cases hs : s = ""
    · rw [if_pos hs] at h
      injection h with h
      subst h
      decide
    · rw [if_neg hs] at h
      by_cases hlen : (jsTrim (jsToUpper s)).length ≠ 3
      · rw [if_pos hlen] at h; cases h
      · rw [if_neg hlen] at h
        by_cases hall : ¬ ((jsTrim (jsToUpper s)).toList.all fun c => 'A' ≤ c && c ≤ 'Z') = true
        · rw [if_pos hall] at h; cases h
        · rw [if_neg hall] at h
          injection h with h
          subst h
          intro hc
          have h3 : ("" : String).length = 3 := by
            rw [← hc]
            exact not_not.mp hlen
          exact absurd h3 (by decide)
  | vNum q => injection h with h; subst h; decide
  | vNaN => injection h with h; subst h; decide
  | vNull => injection h with h; subst h; decide
  | vUndefined => injection h with h; subst h; decide

/-- Inversion of a successful whole-record validation: the currency comes
from `validateCurrency`, and `source`/`rawText` are the defaulted candidate
fields. -/
theorem validateTransaction_ok_inv (now : ℤ) (t : Candidate) (v : ValidatedTx)
    (h : validateTransaction now t = .ok v) :
    validateCurrency (jsOr t.currency (.vStr "USD")) = .ok v.currency ∧
    v.source = strOr t.source "manual" ∧
    v.rawText = strOr t.rawText "" := by
  unfold validateTransaction at h
  cases hA : validateAmount t.amount with
  | error e => simp only [hA] at h; exact Except.noConfusion h
  | ok amount =>
  simp only [hA] at h
  cases hD : validateDate now t.date with
  | error e => simp only [hD] at h; exact Except.noConfusion h
  | ok date =>
  simp only [hD] at h
  cases hT : validateTransactionType t.type with
  | error e => simp only [hT] at h; exact Except.noConfusion h
  | ok type =>
  simp only [hT] at h
  cases hM : validateMerchant t.merchant with
  | error e => simp only [hM] at h; exact Except.noConfusion h
  | ok merchant =>
  simp only [hM] at h
  cases hC : validateCategory t.category with
  | error e => simp only [hC] at h; exact Except.noConfusion h
  | ok category =>
  simp only [hC] at h
  cases hCur : validateCurrency (jsOr t.currency (.vStr "USD")) with
  | error e => simp only [hCur] at h; exact Except.noConfusion h
  | ok currency =>
  simp only [hCur] at h
  split at h
  · cases h
  · injection h with h
    subst h
    exact ⟨rfl, rfl, rfl⟩

/-- C4: when the parsed extractor response lacks any of the required keys,
`extractTransactionFromText` fails with the schema failure built from the
`missingFields` list, and every missing required key appears in that
list. -/
theorem extractTransactionFromText_names_all_missing_fields (env : LLMEnv) (text rc : String) (p : ParsedTx)
    (htext : jsTrim text ≠ "") (hkey : env.apiKeyConfigured = true)
    (hresp : env.response = some rc) (hrc : rc ≠ "")
    (hparse : env.jsonParse (cleanJson rc) = some p)
    (hmiss : ∃ f ∈ requiredFields, presentIn p f = false) :
    extractTransactionFromText env text = .error (.missingRequired (missingFields p)) ∧
    ∀ f ∈ requiredFields, presentIn p f = false → f ∈ missingFields p := by
  have hmem : ∀ f ∈ requiredFields, presentIn p f = false → f ∈ missingFields p := by
    intro f hf hp
    unfold missingFields
    exact List.mem_filter.mpr ⟨hf, by rw [hp]; rfl⟩
  have hne : missingFields p ≠ [] := by
    obtain ⟨f, hf, hp⟩ := hmiss
    intro hnil
    have hin := hmem f hf hp
    rw [hnil] at hin
    exact absurd hin (List.not_mem_nil f)
  refine ⟨?_, hmem⟩
  unfold extractTransactionFromText
  rw [if_neg htext, if_neg (not_not_intro hkey), hresp]
  dsimp only
  rw [if_neg hrc, hparse]
  dsimp only
  rw [if_pos hne]

/-- Cleanup increments the call count whether or not the underlying
`unlink` fails: the internal catch swallows the failure. -/
theorem runCleanup_eq (u : Except String Unit) (eff : Effects) :
    runCleanup u eff = { eff with cleanups := eff.cleanups + 1 } := by
  cases u <;> rfl

/-- C2: whenever a pipeline run (text or image) reaches a duplicate check
that returns a non-empty list, nothing is persisted and the caller receives
`transaction = none`, `isDuplicate = true` and the first returned record as
`duplicateTransaction`. -/
theorem duplicateFound_terminal_no_persist (tenv : TextPipelineEnv) (ienv : ImagePipelineEnv)
    (userId text imagePath : String) :
    (∀ u cand v d ds,
      validateUserId userId = .ok u →
      tenv.llmResult = .ok cand →
      validateTransaction tenv.now
        { cand with source := some "manual", rawText := some text } = .ok v →
      checkForDuplicates tenv.table u v.merchant v.date v.amount = d :: ds →
      processTransactionFromText tenv userId text =
        (.ok ⟨none, duplicateMessage false d, true, some d⟩, ⟨[], 0, 0⟩)) ∧
    (∀ u txt called cand v d ds,
      validateUserId userId = .ok u →
      extractTextFromImage ienv.ocr imagePath = (.ok txt, called) →
      ienv.llmResult = .ok cand →
      validateTransaction ienv.now
        { cand with source := some "ocr", rawText := some txt } = .ok v →
      checkForDuplicates ienv.table u v.merchant v.date v.amount = d :: ds →
      processTransactionFromImage ienv userId imagePath =
        (.ok ⟨none, duplicateMessage true d, true, some d⟩,
          ⟨[], 1, if called then 1 else 0⟩)) := by
  constructor
  · intro u cand v d ds hu hllm hval hdup
    unfold processTransactionFromText
    rw [hu]
    dsimp only
    rw [hllm]
    dsimp only
    rw [hval]
    dsimp only
    rw [hdup]
  · intro u txt called cand v d ds hu hocr hllm hval hdup
    unfold processTransactionFromImage imageTryBody
    rw [hu]
    dsimp only
    rw [hocr]
    dsimp only
    rw [hllm]
    dsimp only
    rw [hval]
    dsimp only
    rw [hdup, runCleanup_eq]

/-- C3: every record either pipeline persists comes from a successful
`validateTransaction` run on the stamped candidate, is written only after a
clear duplicate check, and its business fields equal the validator's
normalized output. -/
theorem persisted_record_is_validator_output (tenv : TextPipelineEnv) (ienv : ImagePipelineEnv)
    (userId text imagePath : String) :
    (∀ r ∈ (processTransactionFromText tenv userId text).2.created,
      ∃ u cand v,
        validateUserId userId = .ok u ∧
        tenv.llmResult = .ok cand ∧
        validateTransaction tenv.now
          { cand with source := some "manual", rawText := some text } = .ok v ∧
        checkForDuplicates tenv.table u v.merchant v.date v.amount = [] ∧
        r = createTransaction tenv.gen u v ∧
        r.amount = v.amount ∧ r.date = v.date ∧ r.type = v.type ∧
        r.merchant = v.merchant ∧ r.category = v.category ∧ r.currency = v.currency ∧
        r.description = v.description ∧ r.source = v.source ∧ r.rawText = v.rawText) ∧
    (∀ r ∈ (processTransactionFromImage ienv userId imagePath).2.created,
      ∃ u txt called cand v,
        validateUserId userId = .ok u ∧
        extractTextFromImage ienv.ocr imagePath = (.ok txt, called) ∧
        ienv.llmResult = .ok cand ∧
        validateTransaction ienv.now
          { cand with source := some "ocr", rawText := some txt } = .ok v ∧
        checkForDuplicates ienv.table u v.merchant v.date v.amount = [] ∧
        r = createTransaction ienv.gen u v ∧
        r.amount = v.amount ∧ r.date = v.date ∧ r.type = v.type ∧
        r.merchant = v.merchant ∧ r.category = v.category ∧ r.currency = v.currency ∧
        r.description = v.description ∧ r.source = v.source ∧ r.rawText = v.rawText) := by
  constructor
  · intro r hr
    unfold processTransactionFromText at hr
    cases hu : validateUserId userId with
    | error e => simp only [hu] at hr; simp at hr
    | ok u =>
    simp only [hu] at hr
    cases hllm : tenv.llmResult with
    | error e => simp only [hllm] at hr; simp at hr
    | ok cand =>
    simp only [hllm] at hr
    cases hval : validateTransaction tenv.now
        { cand with source := some "manual", rawText := some text } with
    | error e => simp only [hval] at hr; simp at hr
    | ok v =>
    simp only [hval] at hr
    cases hdup : checkForDuplicates tenv.table u v.merchant v.date v.amount with
    | cons d ds => simp only [hdup] at hr; simp at hr
    | nil =>
    simp only [hdup] at hr
    simp only [List.mem_singleton] at hr
    subst hr
    obtain ⟨hcur, hsrc, hraw⟩ := validateTransaction_ok_inv tenv.now _ v hval
    have hcne : v.currency ≠ "" := validateCurrency_ok_ne_empty _ _ hcur
    have hsne : v.source ≠ "" := by
      rw [hsrc]
      simp [strOr]
    refine ⟨u, cand, v, rfl, rfl, hval, hdup, rfl, rfl, rfl, rfl, rfl, rfl, ?_, ?_, ?_, ?_⟩
    · exact strOrS_of_ne _ _ hcne
    · exact strOrS_empty_right _
    · exact strOrS_of_ne _ _ hsne
    · exact strOrS_empty_right _
  · intro r hr
    unfold processTransactionFromImage imageTryBody at hr
    cases hu : validateUserId userId with
    | error e => simp only [hu] at hr; simp [runCleanup_eq] at hr
    | ok u =>
    simp only [hu] at hr
    cases hocr : extractTextFromImage ienv.ocr imagePath with
    | mk res called =>
    cases res with
    | error e => simp only [hocr] at hr; simp [runCleanup_eq] at hr
    | ok txt =>
    simp only [hocr] at hr
    cases hllm : ienv.llmResult with
    | error e => simp only [hllm] at hr; simp [runCleanup_eq] at hr
    | ok cand =>
    simp only [hllm] at hr
    cases hval : validateTransaction ienv.now
        { cand with source := some "ocr", rawText := some txt } with
    | error e => simp only [hval] at hr; simp [runCleanup_eq] at hr
    | ok v =>
    simp only [hval] at hr
    cases hdup : checkForDuplicates ienv.table u v.merchant v.date v.amount with
    | cons d ds => simp only [hdup, runCleanup_eq] at hr; simp at hr
    | nil =>
    simp only [hdup, runCleanup_eq] at hr
    simp only [List.mem_singleton] at hr
    subst hr
    obtain ⟨hcur, hsrc, hraw⟩ := validateTransaction_ok_inv ienv.now _ v hval
    have hcne : v.currency ≠ "" := validateCurrency_ok_ne_empty _ _ hcur
    have hsne : v.source ≠ "" := by
      rw [hsrc]
      simp [strOr]
    refine ⟨u, txt, called, cand, v, rfl, rfl, rfl, hval, hdup, rfl, rfl, rfl, rfl, rfl, rfl,
      ?_, ?_, ?_, ?_⟩
    · exact strOrS_of_ne _ _ hcne
    · exact strOrS_empty_right _
    · exact strOrS_of_ne _ _ hsne
    · exact strOrS_empty_right _

/-- Shape of the image pipeline's `try` block: a success always carries
the `cleanedUp` flag and exactly one cleanup call; an error always leaves
the flag unset with no cleanup call yet. -/
theorem imageTryBody_cases (env : ImagePipelineEnv) (userId imagePath : String) :
    (∃ r eff, imageTryBody env userId imagePath =
        (.ok r, true, runCleanup env.unlinkResult eff) ∧ eff.cleanups = 0) ∨
    (∃ e eff, imageTryBody env userId imagePath = (.error e, false, eff) ∧
        eff.cleanups = 0) := by
  unfold imageTryBody
  cases validateUserId userId with
  | error e => exact Or.inr ⟨_, _, rfl, rfl⟩
  | ok vu =>
  dsimp only
  cases extractTextFromImage env.ocr imagePath with
  | mk res called =>
  cases res with
  | error e => exact Or.inr ⟨_, _, rfl, rfl⟩
  | ok txt =>
  dsimp only
  cases env.llmResult with
  | error e => exact Or.inr ⟨_, _, rfl, rfl⟩
  | ok cand =>
  dsimp only
  cases validateTransaction env.now { cand with source := some "ocr", rawText := some txt } with
  | error e => exact Or.inr ⟨_, _, rfl, rfl⟩
  | ok v =>
  dsimp only
  cases checkForDuplicates env.table vu v.merchant v.date v.amount with
  | nil => exact Or.inl ⟨_, _, rfl, rfl⟩
  | cons d ds => exact Or.inl ⟨_, _, rfl, rfl⟩

/-- The image pipeline's outcome does not depend on whether the
temp-file `unlink` succeeds. -/
theorem processTransactionFromImage_unlink_irrelevant (env : ImagePipelineEnv)
    (w : Except String Unit) (userId imagePath : String) :
    processTransactionFromImage env userId imagePath =
      processTransactionFromImage { env with unlinkResult := w } userId imagePath := by
  unfold processTransactionFromImage imageTryBody
  dsimp only
  cases validateUserId userId with
  | error e => dsimp only; rw [runCleanup_eq, runCleanup_eq]
  | ok vu =>
  dsimp only
  cases extractTextFromImage env.ocr imagePath with
  | mk res called =>
  cases res with
  | error e => dsimp only; rw [runCleanup_eq, runCleanup_eq]
  | ok txt =>
  dsimp only
  cases env.llmResult with
  | error e => dsimp only; rw [runCleanup_eq, runCleanup_eq]
  | ok cand =>
  dsimp only
  cases validateTransaction env.now { cand with source := some "ocr", rawText := some txt } with
  | error e => dsimp only; rw [runCleanup_eq, runCleanup_eq]
  | ok v =>
  dsimp only
  cases checkForDuplicates env.table vu v.merchant v.date v.amount with
  | nil => dsimp only; rw [runCleanup_eq, runCleanup_eq]
  | cons d ds => dsimp only; rw [runCleanup_eq, runCleanup_eq]

/-- C9: the image pipeline invokes the cleanup step exactly once on every
exit path, a failing unlink never changes the outcome, and an oversized
image is rejected before any Textract call while cleanup still runs
once. -/
theorem processTransactionFromImage_cleanup_exactly_once (env : ImagePipelineEnv) (userId imagePath : String) :
    (processTransactionFromImage env userId imagePath).2.cleanups = 1 ∧
    processTransactionFromImage env userId imagePath =
      processTransactionFromImage { env with unlinkResult := .ok () } userId imagePath ∧
    (∀ u, validateUserId userId = .ok u → imagePath ≠ "" → env.ocr.fileExists = true →
      env.ocr.fileSize > maxImageBytes →
      (processTransactionFromImage env userId imagePath).1 =
        .error (.ocr (.tooLarge env.ocr.fileSize)) ∧
      (processTransactionFromImage env userId imagePath).2.textractCalls = 0) := by
  refine ⟨?_, processTransactionFromImage_unlink_irrelevant env (.ok ()) userId imagePath, ?_⟩
  · rcases imageTryBody_cases env userId imagePath with ⟨r, eff, heq, hc⟩ | ⟨e, eff, heq, hc⟩
    · unfold processTransactionFromImage
      rw [heq]
      simp [runCleanup_eq, hc]
    · unfold processTransactionFromImage
      rw [heq]
      simp [runCleanup_eq, hc]
  · intro u hu hpath hex hsize
    unfold processTransactionFromImage imageTryBody extractTextFromImage
    rw [hu]
    dsimp only
    rw [if_neg hpath, if_neg (not_not_intro hex), if_pos hsize]
    dsimp only
    rw [runCleanup_eq]
    exact ⟨rfl, rfl⟩

/-- Witness for C2 at a concrete duplicate-bearing table, on both
paths. -/
theorem duplicateFound_terminal_no_persist_witness :
    processTransactionFromText exTextEnvDup "u1" "coffee" =
      (.ok ⟨none, duplicateMessage false exExisting, true, some exExisting⟩, ⟨[], 0, 0⟩) ∧
    processTransactionFromImage exImageEnvDup "u1" "up.png" =
      (.ok ⟨none, duplicateMessage true exExisting, true, some exExisting⟩, ⟨[], 1, 1⟩) := by
  constructor
  · exact (duplicateFound_terminal_no_persist exTextEnvDup exImageEnvDup "u1" "coffee"
      "up.png").1 "u1" exCand exValidated exExisting [] (by decide) rfl (by decide)
      (by simp [checkForDuplicates, queryMerchantDateIndex, exTextEnvDup, exExisting,
            exValidated, List.filter]
          norm_num)
  · exact (duplicateFound_terminal_no_persist exTextEnvDup exImageEnvDup "u1" "coffee"
      "up.png").2 "u1" "coffee" true exCand { exValidated with source := "ocr" } exExisting []
      (by decide) (by decide) rfl (by decide)
      (by simp [checkForDuplicates, queryMerchantDateIndex, exImageEnvDup, exExisting,
            exValidated, List.filter]
          norm_num)

/-- Witness for C3 at a concrete fresh-table text run. -/
theorem persisted_record_is_validator_output_witness :
    ∃ u cand v,
      validateUserId "u1" = .ok u ∧
      exTextEnvFresh.llmResult = .ok cand ∧
      validateTransaction exTextEnvFresh.now
        { cand with source := some "manual", rawText := some "coffee" } = .ok v ∧
      checkForDuplicates exTextEnvFresh.table u v.merchant v.date v.amount = [] ∧
      createTransaction exGen "u1" exValidated = createTransaction exTextEnvFresh.gen u v ∧
      (createTransaction exGen "u1" exValidated).amount = v.amount ∧
      (createTransaction exGen "u1" exValidated).date = v.date ∧
      (createTransaction exGen "u1" exValidated).type = v.type ∧
      (createTransaction exGen "u1" exValidated).merchant = v.merchant ∧
      (createTransaction exGen "u1" exValidated).category = v.category ∧
      (createTransaction exGen "u1" exValidated).currency = v.currency ∧
      (createTransaction exGen "u1" exValidated).description = v.description ∧
      (createTransaction exGen "u1" exValidated).source = v.source ∧
      (createTransaction exGen "u1" exValidated).rawText = v.rawText :=
  (persisted_record_is_validator_output exTextEnvFresh exImageEnvDup "u1" "coffee" "up.png").1
    (createTransaction exGen "u1" exValidated) (by decide)

/-- Witness for C4: a response missing both `merchant` and `type` names
both. -/
theorem extractTransactionFromText_names_all_missing_fields_witness :
    (jsTrim "spent five" ≠ "") ∧
    exLLMEnvMissing.apiKeyConfigured = true ∧
    (∃ f ∈ requiredFields, presentIn exParsedMissing f = false) ∧
    (extractTransactionFromText exLLMEnvMissing "spent five" =
        .error (.missingRequired (missingFields exParsedMissing)) ∧
      ∀ f ∈ requiredFields, presentIn exParsedMissing f = false →
        f ∈ missingFields exParsedMissing) ∧
    missingFields exParsedMissing = ["merchant", "type"] :=
  ⟨by decide, rfl, by decide,
    extractTransactionFromText_names_all_missing_fields exLLMEnvMissing "spent five"
      "\x7b\x7d" exParsedMissing (by decide) rfl rfl (by decide) rfl (by decide),
    by decide⟩

/-- Witness for C7 at a concrete accepted date. -/
theorem validateDate_calendar_year_characterization_witness :
    msOfCivil 2023 7 1 ≤ oneYearFromNow exNowLeapSpan ∧
    validateDate exNowLeapSpan (.parsed (msOfCivil 2023 7 1)) =
      .ok (isoDateString (msOfCivil 2023 7 1)) :=
  ⟨by decide,
    (validateDate_calendar_year_characterization exNowLeapSpan
      (.parsed (msOfCivil 2023 7 1))).2.2 (msOfCivil 2023 7 1) rfl (by decide)⟩

/-- Witness for C9 at a concrete oversized upload. -/
theorem processTransactionFromImage_cleanup_exactly_once_witness :
    (processTransactionFromImage exImageEnvBig "u1" "up.png").2.cleanups = 1 ∧
    validateUserId "u1" = .ok "u1" ∧
    exImageEnvBig.ocr.fileSize > maxImageBytes ∧
    ((processTransactionFromImage exImageEnvBig "u1" "up.png").1 =
        .error (.ocr (.tooLarge exImageEnvBig.ocr.fileSize)) ∧
      (processTransactionFromImage exImageEnvBig "u1" "up.png").2.textractCalls = 0) :=
  ⟨(processTransactionFromImage_cleanup_exactly_once exImageEnvBig "u1" "up.png").1,
    by decide, by decide,
    (processTransactionFromImage_cleanup_exactly_once exImageEnvBig "u1" "up.png").2.2
      "u1" (by decide) (by decide) rfl (by decide)⟩

/-- Witness for C10 at a concrete lowercase currency code. -/
theorem validateCurrency_string_characterization_witness :
    isThreeLetters (jsTrim (jsToUpper "eur")) = true ∧
    validateCurrency (.vStr "eur") = .ok (jsTrim (jsToUpper "eur")) :=
  ⟨by decide,
    ((validateCurrency_string_characterization (.vStr "eur")).1 "eur" rfl (by decide)).2
      (by decide)⟩

/-- C5 (code bug): the response cleaning deletes newlines and bare
triple-backtick markers, so a fence tagged `json` leaves a `json` prefix on
the payload; no JSON text may start that way, so `JSON.parse` fails and the
extractor raises its parse failure, while an untagged fence is stripped
cleanly and parses. -/
theorem cleanJson_leaves_json_tag_prefix :
    cleanJson fencedJsonExample = "json" ++ innerJsonExample ∧
    canStartJson ("json" ++ innerJsonExample) = false ∧
    canStartJson innerJsonExample = true ∧
    extractTransactionFromText exLLMEnvFenced "receipt text" = .error .parseFailure ∧
    extractTransactionFromText { exLLMEnvFenced with response := some plainFencedExample }
        "receipt text" = .ok (postProcess exLLMEnvFenced exParsedGood) ∧
    cleanJson plainFencedExample = innerJsonExample := by
  decide

/-- C7 counterexample: at validation time 2023-06-15, an instant 366 days
ahead — more than 365 days — is accepted and normalized, because the code's
bound is one calendar year, which spans 366 days across 2024-02-29. -/
theorem validateDate_accepts_366_days_ahead :
    validateDate exNowLeapSpan (.parsed (exNowLeapSpan + 366 * msPerDay)) = .ok "2024-06-15" ∧
    365 * msPerDay < 366 * msPerDay := by
  decide

/-- C8 (code bug): the listing query orders by the table's sort key
`transactionId` (a random `tx-<uuid>` value), not by `timestamp`, so a pair
of records where the later-created one has the smaller sort key comes back
oldest-first. -/
theorem getUserTransactions_not_newest_first :
    getUserTransactions [exOlderRec, exNewerRec] "u1" defaultLimit = [exOlderRec, exNewerRec] ∧
    exOlderRec.timestamp < exNewerRec.timestamp := by
  decide

/-- C10 counterexample: the empty string is a string whose trimmed
uppercased form is not three letters, yet `validateCurrency` returns the
`USD` default instead of raising, because the falsy guard catches it. -/
theorem validateCurrency_empty_string_defaults_to_usd :
    validateCurrency (.vStr "") = .ok "USD" ∧
    isThreeLetters (jsTrim (jsToUpper "")) = false := by
  decide

/-- C1 counterexample: on a 101-item table whose only matching record lies
past the fallback scan's 100-evaluated-item cap, the fallback returns
nothing although a record matching the claim's predicate exists (the indexed
path does return it). -/
theorem checkForDuplicatesFallback_misses_match_beyond_scan_window :
    checkForDuplicatesFallback exBigTable "u1" "Starbucks" "2024-01-10" 10 = [] ∧
    exMineRec ∈ exBigTable ∧
    (exMineRec.userId = "u1" ∧ exMineRec.merchant = "Starbucks" ∧
      exMineRec.date = "2024-01-10" ∧ |exMineRec.amount - 10| / 10 ≤ 5 / 100) ∧
    checkForDuplicates exBigTable "u1" "Starbucks" "2024-01-10" 10 = [exMineRec] := by
  refine ⟨by decide, by decide,
    ⟨by decide, by decide, by decide, by norm_num [exMineRec, exExisting]⟩, ?_⟩
  simp [checkForDuplicates, queryMerchantDateIndex, exBigTable, exMineRec, exOtherRec,
    exExisting, List.filter]
  norm_num
